import Mathlib

/-!
Shallow embedding of the log-visualizer's core pipeline
(`21stmayprogress.py`): the Coordinate-Pair Resolver
(`generate_default_coord_variables`), the Marker Scanner
(`run_grep_on_file`), the Sectionizer (`parse_log_file_from_path`) and the
Line Parser (`process_sector`).  Strings are modelled as `List Char`;
Python `float` values are modelled as `ℚ` (the parsed decimals are exact);
the source file is modelled as its list of lines (without trailing
newlines), an unreadable file as an `Except.error` carrying the reason.
Regex character classes are modelled over ASCII (`\w` = letters, digits,
underscore), which covers the log format the program targets.
-/

namespace LogViz

abbrev Str := List Char

/-- Regex `\d` (ASCII digit). -/
def isDigitChar (c : Char) : Bool := '0' ≤ c && c ≤ '9'

/-- Regex `\s` (ASCII whitespace, as in Python `re`). -/
def isSpaceChar (c : Char) : Bool :=
  c = ' ' || c = '\t' || c = '\n' || c = '\r' || c = '\x0b' || c = '\x0c'

/-- Regex `\w` (ASCII model: letter, digit or underscore). -/
def isWordChar (c : Char) : Bool := c.isAlpha || isDigitChar c || c = '_'

/-- Character class `[\w.]` of the pair-extraction regex. -/
def isWordDot (c : Char) : Bool := isWordChar c || c = '.'

/-- Character class `[-\d.]` of the value part of the extraction regexes. -/
def isValChar (c : Char) : Bool := c = '-' || isDigitChar c || c = '.'

/-- Python `str.isalpha` (ASCII model). -/
def isAlphaChar (c : Char) : Bool := c.isAlpha

/-- Python `str.strip()`: remove leading and trailing whitespace. -/
def strip (s : Str) : Str :=
  ((s.dropWhile isSpaceChar).reverse.dropWhile isSpaceChar).reverse

/-- Numeric value of one ASCII digit. -/
def digitVal (c : Char) : Nat := c.toNat - ('0').toNat

/-- Numeric value of a digit string (most significant first). -/
def digitsVal (s : Str) : Nat := s.foldl (fun a c => 10 * a + digitVal c) 0

/-- Python `float(val)` restricted to the strings the extraction regexes can
produce (runs of `[-\d.]`): an optional single leading minus sign, then
digits with at most one decimal point and at least one digit.  The value is
returned as an exact rational. -/
def float (s : Str) : Option ℚ :=
  let p : Bool × Str := match s with
    | '-' :: t => (true, t)
    | _ => (false, s)
  let neg := p.1
  let t := p.2
  if t.all (fun c => isDigitChar c || c = '.') &&
      t.countP (fun c => c = '.') ≤ 1 && t.any isDigitChar then
    let ip := t.takeWhile (fun c => c ≠ '.')
    let fp := (t.dropWhile (fun c => c ≠ '.')).drop 1
    let den : Nat := 10 ^ fp.length
    let num : Int := (digitsVal ip * den + digitsVal fp : Nat)
    some (mkRat (if neg then -num else num) den)
  else none

/-- The numeric fields of a matched timestamp `DD/MM/YY HH:MM:SS.mmm`. -/
structure TsF where
  day : Nat
  month : Nat
  year : Nat
  hour : Nat
  minute : Nat
  second : Nat
deriving DecidableEq, Repr

/-- Two-digit number from its digit characters. -/
def two (a b : Char) : Nat := 10 * digitVal a + digitVal b

/-- `re.match(r'(\d{2}/\d{2}/\d{2} \d{2}:\d{2}:\d{2}\.\d{3})\s+(.*)', line)`
(line 96 of the source): anchored at the start of the line, exactly three
sub-second digits followed by at least one whitespace character; returns
the timestamp text, its numeric fields and the free-text content (group 2;
`.` stops at a newline). -/
def matchTimestamp : Str → Option (Str × TsF × Str)
  | a1 :: a2 :: '/' :: b1 :: b2 :: '/' :: c1 :: c2 :: ' ' ::
    h1 :: h2 :: ':' :: m1 :: m2 :: ':' :: s1 :: s2 :: '.' ::
    f1 :: f2 :: f3 :: rest =>
    if [a1, a2, b1, b2, c1, c2, h1, h2, m1, m2, s1, s2, f1, f2, f3].all isDigitChar then
      let ws := rest.takeWhile isSpaceChar
      if ws = [] then none
      else
        let tail := rest.dropWhile isSpaceChar
        some ([a1, a2, '/', b1, b2, '/', c1, c2, ' ',
               h1, h2, ':', m1, m2, ':', s1, s2, '.', f1, f2, f3],
              ⟨two a1 a2, two b1 b2, two c1 c2, two h1 h2, two m1 m2, two s1 s2⟩,
              tail.takeWhile (fun c => c ≠ '\n'))
    else none
  | _ => none

/-- Python `strptime` two-digit year pivot: 00-68 ↦ 2000-2068, 69-99 ↦ 1969-1999. -/
def fullYear (yy : Nat) : Nat := if yy ≤ 68 then 2000 + yy else 1900 + yy

def isLeapYear (y : Nat) : Bool := y % 4 = 0 && (y % 100 ≠ 0 || y % 400 = 0)

def daysInMonth (y m : Nat) : Nat :=
  if m = 2 then (if isLeapYear y then 29 else 28)
  else if m = 4 || m = 6 || m = 9 || m = 11 then 30
  else 31

/-- `datetime.strptime(timestamp, '%d/%m/%y %H:%M:%S.%f')` succeeding
(line 101): the field ranges `strptime` and the `datetime` constructor
accept for a shape-valid two-digit-field timestamp. -/
def validDateTime (f : TsF) : Bool :=
  1 ≤ f.month && f.month ≤ 12 && 1 ≤ f.day &&
  f.day ≤ daysInMonth (fullYear f.year) f.month &&
  f.hour ≤ 23 && f.minute ≤ 59 && f.second ≤ 59

/-- One attempt of `([\w.]+)\s*[:=]\s*([-\d.]+)` at the head of `s`
(the classes are disjoint, so the greedy runs admit no backtracking);
returns the name, the value text and the rest of the string after the
match. -/
def matchPairAt (s : Str) : Option (Str × Str × Str) :=
  let name := s.takeWhile isWordDot
  if name = [] then none
  else
    let r1 := s.dropWhile isWordDot
    let r2 := r1.dropWhile isSpaceChar
    match r2 with
    | c :: r3 =>
      if c = ':' || c = '=' then
        let r4 := r3.dropWhile isSpaceChar
        let val := r4.takeWhile isValChar
        if val = [] then none else some (name, val, r4.dropWhile isValChar)
      else none
    | [] => none

/-- `re.findall(r'([\w.]+)\s*[:=]\s*([-\d.]+)', content)` (line 105):
leftmost non-overlapping matches, scanning resumes after each match.
The fuel starts at the string length and each step consumes at least one
character, so it never runs out. -/
def findPairsAux : Nat → Str → List (Str × Str)
  | 0, _ => []
  | _, [] => []
  | fuel + 1, s =>
    match matchPairAt s with
    | some (n, v, r) => (n, v) :: findPairsAux fuel r
    | none => findPairsAux fuel s.tail

def findPairs (s : Str) : List (Str × Str) := findPairsAux s.length s

/-- One attempt of `<escaped custom>\s+([-\d.]+)` at the head of `s`. -/
def matchCustomAt (cv s : Str) : Option Str :=
  if s.take cv.length = cv then
    let r1 := (s.drop cv.length)
    let ws := r1.takeWhile isSpaceChar
    if ws = [] then none
    else
      let val := (r1.dropWhile isSpaceChar).takeWhile isValChar
      if val = [] then none else some val
  else none

/-- `re.search(rf'{re.escape(custom_variable)}\s+([-\d.]+)', content)`
(lines 118-119): the captured value of the leftmost match, if any. -/
def searchCustomAux (cv : Str) : Nat → Str → Option Str
  | 0, _ => none
  | fuel + 1, s =>
    match matchCustomAt cv s with
    | some v => some v
    | none =>
      match s with
      | [] => none
      | _ :: rest => searchCustomAux cv fuel rest

def searchCustom (cv s : Str) : Option Str := searchCustomAux cv (s.length + 1) s

/-- One row of the observation table built at line 112 of the source
(the `datetime` column is determined by `timestamp`, so it is not
duplicated here; `var` stands for the source's `variable` column, which is
a reserved word in Lean). -/
structure Observation where
  timestamp : Str
  line_number : Nat
  var : Str
  value : ℚ
deriving DecidableEq, Repr

/-- One row of the coordinate table built at line 134 of the source. -/
structure CoordObservation where
  timestamp : Str
  line_number : Nat
  coord_name : Str
  x : ℚ
  y : ℚ
deriving DecidableEq, Repr

/-- Lookup in the per-line `parsed_values` dict: the value of the last
binding of the key (Python dict assignment overwrites). -/
def pvLookup : List (Str × ℚ) → Str → Option ℚ
  | [], _ => none
  | (k, v) :: rest, key =>
    match pvLookup rest key with
    | some v2 => some v2
    | none => if k = key then some v else none

/-- The `for var, val in pairs` loop (lines 108-115): each token whose
value parses as a number contributes one binding of `parsed_values` and
one observation row; a failing `float` is skipped silently. -/
def pairsLoop (ts : Str) (n : Nat) : List (Str × Str) → List (Str × ℚ) × List Observation
  | [] => ([], [])
  | (var, val) :: rest =>
    match float val with
    | some q =>
      let r := pairsLoop ts n rest
      ((var, q) :: r.1, ⟨ts, n, var, q⟩ :: r.2)
    | none => pairsLoop ts n rest

/-- The custom-variable scan (lines 117-126): at most one extra
observation, appended to `data` but never to `parsed_values`. -/
def customObs (ts : Str) (n : Nat) (cv content : Str) : List Observation :=
  match searchCustom cv content with
  | some valStr =>
    match float valStr with
    | some q => [⟨ts, n, cv, q⟩]
    | none => []
  | none => []

/-- Coordinate-set name derivation (line 133): strip one trailing `X` if
present, then append `_Coords`. -/
def coordName (x_var : Str) : Str :=
  (if x_var.getLast? = some 'X' then x_var.dropLast else x_var) ++ ("_Coords").toList

/-- The `for x_var, y_var in coord_vars.items()` loop (lines 128-137): one
coordinate observation per mapping entry whose X and Y members are both in
the line's `parsed_values`. -/
def coordLoop (ts : Str) (n : Nat) (pv : List (Str × ℚ)) :
    List (Str × Str) → List CoordObservation
  | [] => []
  | (x_var, y_var) :: rest =>
    match pvLookup pv x_var, pvLookup pv y_var with
    | some xv, some yv => ⟨ts, n, coordName x_var, xv, yv⟩ :: coordLoop ts n pv rest
    | _, _ => coordLoop ts n pv rest

/-- The body of the `for line_num, line in enumerate(lines, start=1)` loop
(lines 95-137) for one line: its observation rows and coordinate rows.
A line with no leading timestamp, or whose timestamp fields are out of
range, contributes nothing. -/
def processLine (custom_variable : Option Str) (coord_vars : List (Str × Str))
    (line_num : Nat) (line : Str) : List Observation × List CoordObservation :=
  match matchTimestamp line with
  | none => ([], [])
  | some (ts, f, content) =>
    if validDateTime f then
      let r := pairsLoop ts line_num (findPairs content)
      let data := r.2 ++ (match custom_variable with
        | some cv => if cv = [] then [] else customObs ts line_num cv content
        | none => [])
      (data, coordLoop ts line_num r.1 coord_vars)
    else ([], [])

/-- The line loop of `process_sector`, accumulating both tables in line
order (`n` is the 1-based number of the first line of `ls`). -/
def sectorLoop (custom_variable : Option Str) (coord_vars : List (Str × Str))
    (n : Nat) : List Str → List Observation × List CoordObservation
  | [] => ([], [])
  | l :: ls =>
    let h := processLine custom_variable coord_vars n l
    let r := sectorLoop custom_variable coord_vars (n + 1) ls
    (h.1 ++ r.1, h.2 ++ r.2)

/-- Lexicographic (code-point) order on strings, as Python `sorted` uses. -/
def strLe : Str → Str → Bool
  | [], _ => true
  | _ :: _, [] => false
  | a :: as, b :: bs => a < b || (a = b && strLe as bs)

def insertStr (x : Str) : List Str → List Str
  | [] => [x]
  | y :: ys => if strLe x y then x :: y :: ys else y :: insertStr x ys

def sortStrs : List Str → List Str
  | [] => []
  | x :: xs => insertStr x (sortStrs xs)

/-- `custom_variable = custom_var.strip() if custom_var else None`
(line 92). -/
def normalizeCustom : Option Str → Option Str
  | none => none
  | some s => if s = [] then none else some (strip s)

/-- `process_sector(lines, custom_var, coord_variables)` (lines 89-139):
returns the observation table, the coordinate table, the sorted distinct
variable names and the sorted distinct coordinate-set names. -/
def process_sector (lines : List Str) (custom_var : Option Str)
    (coord_variables : List (Str × Str)) :
    List Observation × List CoordObservation × List Str × List Str :=
  let r := sectorLoop (normalizeCustom custom_var) coord_variables 1 lines
  (r.1, r.2, sortStrs (r.1.map (fun o => o.var)).dedup,
   sortStrs (r.2.map (fun c => c.coord_name)).dedup)

/-- The fixed base pairs of `generate_default_coord_variables`
(lines 13-21). -/
def base_pairs : List (Str × Str) :=
  [(("OrigTgX").toList, ("OrigTgY").toList),
   (("FusionX").toList, ("FusionY").toList),
   (("KalmanTgX").toList, ("KalmanTgY").toList),
   (("WX").toList, ("WY").toList),
   (("LXW").toList, ("LYW").toList),
   (("RWX").toList, ("RWY").toList),
   (("current_coord.x").toList, ("current_coord.y").toList)]

/-- Python dict assignment `d[k] = v`: overwrite in place if the key
exists, else append (insertion order is preserved). -/
def dictInsert (d : List (Str × Str)) (k v : Str) : List (Str × Str) :=
  if d.any (fun p => p.1 = k) then
    d.map (fun p => if p.1 = k then (k, v) else p)
  else d ++ [(k, v)]

/-- `generate_default_coord_variables(custom_variable)` (lines 12-34).
`none` models Python `None`; `some []` models the empty string (both are
falsy). -/
def generate_default_coord_variables (custom_variable : Option Str) :
    List (Str × Str) :=
  match custom_variable with
  | none => base_pairs
  | some cv0 =>
    if cv0 = [] then base_pairs
    else
      let cv := strip cv0
      let d1 :=
        if base_pairs.any (fun p => p.1 = cv) then base_pairs
        else if cv.getLast? = some 'X' then
          dictInsert base_pairs cv (cv.dropLast ++ ['Y'])
        else dictInsert base_pairs cv (cv ++ ['Y'])
      if cv.length = 1 && cv.all isAlphaChar then
        dictInsert d1 ('R' :: cv) ('R' :: (cv ++ ['Y']))
      else d1

/-- Strip a literal from the head of a string, or fail. -/
def dropLit : Str → Str → Option Str
  | [], s => some s
  | _ :: _, [] => none
  | p :: ps, c :: cs => if c = p then dropLit ps cs else none

/-- Consume a nonempty maximal digit run (`[0-9]+`), or fail. -/
def digits1 (s : Str) : Option Str :=
  if s.takeWhile isDigitChar = [] then none else some (s.dropWhile isDigitChar)

/-- One attempt of grep's pattern `RX [0-9]+ RY [0-9]+ TX [0-9]+ TY [0-9]+`
at the head of `s` (the literals start with non-digits, so the greedy
digit runs admit no backtracking). -/
def markerMatchAt (s : Str) : Bool :=
  (((((((dropLit (("RX ").toList) s).bind digits1).bind
      (dropLit ((" RY ").toList))).bind digits1).bind
      (dropLit ((" TX ").toList))).bind digits1).bind
      (fun r => ((dropLit ((" TY ").toList) r).bind digits1))).isSome

/-- grep is a per-line substring (regular-expression) test: the marker
pattern matches somewhere in the line. -/
def markerMatch : Str → Bool
  | [] => false
  | c :: rest => markerMatchAt (c :: rest) || markerMatch rest

/-- The matched-line list `grep -n` produces, with the source's
post-processing (line 52): 1-based line numbers (`k` is the number of the
first line of `ls`) and stripped matched text, in file order. -/
def grepAux (k : Nat) : List Str → List (Nat × Str)
  | [] => []
  | l :: ls =>
    if markerMatch l then (k, strip l) :: grepAux (k + 1) ls
    else grepAux (k + 1) ls

def run_grep_lines (lines : List Str) : List (Nat × Str) := grepAux 1 lines

/-- `run_grep_on_file` (lines 36-59), with the file modelled as
`Except`: an unreadable file makes grep exit with a status other than 1,
which the source turns into an error string carrying the reason. -/
def run_grep_on_file (file : Except Str (List Str)) :
    List (Nat × Str) × Option Str :=
  match file with
  | .error e => ([], some (("Error running grep: ").toList ++ e))
  | .ok lines => (run_grep_lines lines, none)

/-- A sector-selection label (lines 82-85). -/
structure Label where
  label : Str
  value : Str
deriving DecidableEq, Repr

def sectorName (i : Nat) : Str := ("Sector ").toList ++ (Nat.repr i).toList

/-- The sector-building loop of `parse_log_file_from_path` (lines 76-86),
restructured from index arithmetic to recursion: the slice bound
`matched_lines[idx + 1][0] - 1` is the head of `rest` when it exists and
`len(lines)` for the last sector; `k` is the 1-based sector counter. -/
def sectionizeAux (lines : List Str) (k : Nat) :
    List (Nat × Str) → List (Str × List Str)
  | [] => []
  | (m, _) :: rest =>
    let start_idx := m - 1
    let end_idx := match rest with
      | (m2, _) :: _ => m2 - 1
      | [] => lines.length
    (sectorName k, ((lines.drop start_idx).take (end_idx - start_idx)).map strip) ::
      sectionizeAux lines (k + 1) rest

def sectionize (lines : List Str) (matched : List (Nat × Str)) :
    List (Str × List Str) :=
  sectionizeAux lines 1 matched

/-- The label-building part of the same loop (lines 82-85). -/
def labelsAux (k : Nat) : List (Nat × Str) → List Label
  | [] => []
  | (m, t) :: rest =>
    ⟨sectorName k ++ (" - Line ").toList ++ (Nat.repr m).toList ++
       (": ").toList ++ t.take 60, sectorName k⟩ :: labelsAux (k + 1) rest

def mkLabels (matched : List (Nat × Str)) : List Label := labelsAux 1 matched

/-- `parse_log_file_from_path` (lines 61-87): sector table, labels and a
status string. -/
def parse_log_file_from_path (file : Except Str (List Str)) :
    List (Str × List Str) × List Label × Str :=
  match run_grep_on_file file with
  | (_, some err) => ([], [], err)
  | (matched_lines, none) =>
    match file with
    | .error e => ([], [], ("Error reading file: ").toList ++ e)
    | .ok lines =>
      if matched_lines = [] then
        ([], [], ("No sectors found matching pattern.").toList)
      else
        (sectionize lines matched_lines, mkLabels matched_lines,
         ("✅ Loaded ").toList ++ (Nat.repr matched_lines.length).toList ++
           (" sector(s).").toList)

/-- The 0-based line-index range `[start_idx, end_idx)` of each sector,
exactly the slice bounds computed at lines 78-79 of the source. -/
def sectorRanges (total : Nat) : List Nat → List (Nat × Nat)
  | [] => []
  | m :: rest =>
    (m - 1, match rest with
      | m2 :: _ => m2 - 1
      | [] => total) :: sectorRanges total rest

/-- Decidable membership of a 0-based line index in a line-index range. -/
def inRange (j : Nat) (r : Nat × Nat) : Bool := r.1 ≤ j && j < r.2

/-! ## Helper lemmas -/

/-- Inserting a key that is not present appends the binding. -/
theorem dictInsert_of_not_present (d : List (Str × Str)) (k v : Str)
    (h : d.any (fun p => p.1 = k) = false) : dictInsert d k v = d ++ [(k, v)] := by
  simp only [dictInsert, h]
  rfl

/-- The explicit character lists behind `base_pairs`. -/
theorem base_pairs_chars :
    base_pairs =
      [(['O', 'r', 'i', 'g', 'T', 'g', 'X'], ['O', 'r', 'i', 'g', 'T', 'g', 'Y']),
       (['F', 'u', 's', 'i', 'o', 'n', 'X'], ['F', 'u', 's', 'i', 'o', 'n', 'Y']),
       (['K', 'a', 'l', 'm', 'a', 'n', 'T', 'g', 'X'],
        ['K', 'a', 'l', 'm', 'a', 'n', 'T', 'g', 'Y']),
       (['W', 'X'], ['W', 'Y']),
       (['L', 'X', 'W'], ['L', 'Y', 'W']),
       (['R', 'W', 'X'], ['R', 'W', 'Y']),
       (['c', 'u', 'r', 'r', 'e', 'n', 't', '_', 'c', 'o', 'o', 'r', 'd', '.', 'x'],
        ['c', 'u', 'r', 'r', 'e', 'n', 't', '_', 'c', 'o', 'o', 'r', 'd', '.', 'y'])] := rfl

/-- No base key has the two-character form `R<char>`. -/
theorem base_pairs_no_R_single (c : Char) :
    base_pairs.any (fun p => p.1 = 'R' :: [c]) = false := by
  rw [base_pairs_chars]
  simp

/-! ## C2 -/

/-- C2, counterexample: `"RX"` is not a key of the base set, so the
Coordinate-Pair Resolver does not return the mapping unchanged — it adds
the pair `RX→RY`. -/
theorem c2_counterexample :
    base_pairs.any (fun p => p.1 = ("RX").toList) = false ∧
    generate_default_coord_variables (some (("RX").toList)) ≠ base_pairs := by
  decide

/-- C2, amended: called with custom variable `"RX"`, the Resolver returns
the base set extended with the single pair `RX→RY` (the trailing `X` is
replaced by `Y`), because `"RX"` is not a base key; a custom variable that
is already a base key, such as `"WX"`, does leave the mapping unchanged. -/
theorem c2_resolver_rx_amended :
    generate_default_coord_variables (some (("RX").toList)) =
      base_pairs ++ [(("RX").toList, ("RY").toList)] ∧
    generate_default_coord_variables (some (("WX").toList)) = base_pairs := by
  decide

/-! ## C3 -/

/-- C3: for every stripped nonempty custom name that is not a base key,
the Resolver adds `custom → custom[:-1] + "Y"` when the name ends in `X`
and `custom → custom + "Y"` otherwise; and whenever the custom name is a
single alphabetic character `c`, it additionally adds `Rc → RcY` — both
pairs are present simultaneously. -/
theorem c3_custom_pair_rules (cv : Str) (h0 : cv ≠ []) (h1 : strip cv = cv)
    (h2 : base_pairs.any (fun p => p.1 = cv) = false) :
    (cv, if cv.getLast? = some 'X' then cv.dropLast ++ ['Y'] else cv ++ ['Y'])
        ∈ generate_default_coord_variables (some cv) ∧
    (cv.length = 1 → cv.all isAlphaChar = true →
      ('R' :: cv, 'R' :: (cv ++ ['Y'])) ∈ generate_default_coord_variables (some cv)) := by
  have hg0 : generate_default_coord_variables (some cv) =
      (let d1 := base_pairs ++
        [(cv, if cv.getLast? = some 'X' then cv.dropLast ++ ['Y'] else cv ++ ['Y'])]
       if cv.length = 1 && cv.all isAlphaChar then
         dictInsert d1 ('R' :: cv) ('R' :: (cv ++ ['Y']))
       else d1) := by
    simp only [generate_default_coord_variables, if_neg h0, h1, h2, Bool.false_eq_true,
      if_false]
    by_cases hX : cv.getLast? = some 'X'
    · simp only [hX, if_true, dictInsert_of_not_present _ _ _ h2]
    · simp only [hX, if_false, dictInsert_of_not_present _ _ _ h2]
  by_cases hA : (cv.length = 1 && cv.all isAlphaChar) = true
  · have hc : ∃ c : Char, cv = [c] := by
      rcases cv with _ | ⟨c, _ | ⟨d, t⟩⟩
      · exact absurd rfl h0
      · exact ⟨c, rfl⟩
      · exfalso
        have := (Bool.and_eq_true _ _).mp hA
        simp at this
    obtain ⟨c, rfl⟩ := hc
    have hnp : (base_pairs ++
        [([c], if [c].getLast? = some 'X' then [c].dropLast ++ ['Y'] else [c] ++ ['Y'])]).any
        (fun p => p.1 = 'R' :: [c]) = false := by
      rw [List.any_append, base_pairs_no_R_single]
      simp
    rw [hg0]
    simp only [hA, if_true, dictInsert_of_not_present _ _ _ hnp]
    constructor
    · simp
    · intro _ _
      simp
  · rw [hg0]
    simp only [hA, if_false]
    refine ⟨by simp, ?_⟩
    intro hl ha
    exact absurd (by rw [hl, ha]; rfl : (cv.length = 1 && cv.all isAlphaChar) = true) hA

/-- C3, witness at custom variable `"A"`: both `A→AY` and `RA→RAY` are
present in the resolved mapping. -/
theorem c3_witness :
    (("A").toList ≠ [] ∧ strip (("A").toList) = ("A").toList ∧
      base_pairs.any (fun p => p.1 = ("A").toList) = false) ∧
    (("A").toList, ("AY").toList) ∈ generate_default_coord_variables (some (("A").toList)) ∧
    (("RA").toList, ("RAY").toList) ∈ generate_default_coord_variables (some (("A").toList)) :=
  ⟨⟨by decide, by decide, by decide⟩,
   (c3_custom_pair_rules (("A").toList) (by decide) (by decide) (by decide)).1,
   (c3_custom_pair_rules (("A").toList) (by decide) (by decide) (by decide)).2
     (by decide) (by decide)⟩

/-! ## Marker-scanner lemmas -/

/-- If no line matches the marker pattern, grep reports no lines. -/
theorem grepAux_eq_nil (ls : List Str) (h : ∀ l ∈ ls, markerMatch l = false) :
    ∀ k, grepAux k ls = [] := by
  induction ls with
  | nil => intro k; rfl
  | cons l t ih =>
    intro k
    have hl : markerMatch l = false := h l (List.mem_cons_self l t)
    have ht : ∀ x ∈ t, markerMatch x = false := fun x hx => h x (List.mem_cons_of_mem l hx)
    simp only [grepAux, hl, Bool.false_eq_true, if_false]
    exact ih ht (k + 1)

/-- Every reported line number lies in `[k, k + len)`. -/
theorem grepAux_bounds (ls : List Str) :
    ∀ k, ∀ p ∈ grepAux k ls, k ≤ p.1 ∧ p.1 < k + ls.length := by
  induction ls with
  | nil => intro k p hp; exact absurd hp (List.not_mem_nil p)
  | cons l t ih =>
    intro k p hp
    simp only [grepAux] at hp
    by_cases hm : markerMatch l = true
    · rw [if_pos hm] at hp
      rcases List.mem_cons.mp hp with h | h
      · subst h; simp
      · have := ih (k + 1) p h
        constructor <;> [omega; (simp only [List.length_cons]; omega)]
    · rw [if_neg hm] at hp
      have := ih (k + 1) p hp
      constructor <;> [omega; (simp only [List.length_cons]; omega)]

/-- The reported line numbers are strictly increasing. -/
theorem grepAux_chain (ls : List Str) :
    ∀ k, (grepAux k ls).Chain' (fun a b => a.1 < b.1) := by
  induction ls with
  | nil => intro k; exact List.chain'_nil
  | cons l t ih =>
    intro k
    simp only [grepAux]
    by_cases hm : markerMatch l = true
    · rw [if_pos hm]
      refine List.chain'_cons'.mpr ⟨?_, ih (k + 1)⟩
      intro b hb
      have hmem : b ∈ grepAux (k + 1) t := List.mem_of_mem_head? hb
      have := grepAux_bounds t (k + 1) b hmem
      omega
    · rw [if_neg hm]
      exact ih (k + 1)

/-! ## C7 -/

/-- C7: a readable file with no marker matches yields the empty sector
table with the informational "no sectors found" status, while an
unreadable file yields the error status carrying the underlying reason. -/
theorem c7_no_sectors_vs_error (lines : List Str)
    (h : ∀ l ∈ lines, markerMatch l = false) (e : Str) :
    parse_log_file_from_path (.ok lines) =
      ([], [], ("No sectors found matching pattern.").toList) ∧
    parse_log_file_from_path (.error e) =
      ([], [], ("Error running grep: ").toList ++ e) := by
  constructor
  · have hg : run_grep_lines lines = [] := grepAux_eq_nil lines h 1
    simp only [parse_log_file_from_path, run_grep_on_file, hg]
    rfl
  · rfl

/-- C7, witness: a one-line file with no marker, and an unreadable file
whose reason is `"Permission denied"`. -/
theorem c7_witness :
    (∀ l ∈ [("hello world").toList], markerMatch l = false) ∧
    parse_log_file_from_path (.ok [("hello world").toList]) =
      ([], [], ("No sectors found matching pattern.").toList) ∧
    parse_log_file_from_path (.error (("Permission denied").toList)) =
      ([], [], ("Error running grep: ").toList ++ ("Permission denied").toList) :=
  ⟨by decide,
   (c7_no_sectors_vs_error [("hello world").toList] (by decide)
      (("Permission denied").toList)).1,
   (c7_no_sectors_vs_error [("hello world").toList] (by decide)
      (("Permission denied").toList)).2⟩

/-! ## Sectionizer lemmas -/

/-- One sector per marker. -/
theorem sectionizeAux_length (lines : List Str) (matched : List (Nat × Str)) :
    ∀ k, (sectionizeAux lines k matched).length = matched.length := by
  induction matched with
  | nil => intro k; rfl
  | cons p t ih =>
    intro k
    obtain ⟨m, s⟩ := p
    simp only [sectionizeAux, List.length_cons, ih (k + 1)]

/-- Each sector's line list is the stripped slice of the file at the
corresponding 0-based index range of `sectorRanges`. -/
theorem sectionizeAux_ranges (lines : List Str) (matched : List (Nat × Str)) :
    ∀ k, (sectionizeAux lines k matched).map (fun s => s.2) =
      (sectorRanges lines.length (matched.map Prod.fst)).map
        (fun r => ((lines.drop r.1).take (r.2 - r.1)).map strip) := by
  induction matched with
  | nil => intro k; rfl
  | cons p t ih =>
    intro k
    obtain ⟨m, s⟩ := p
    cases t with
    | nil => rfl
    | cons q u =>
      obtain ⟨m2, s2⟩ := q
      show ((lines.drop (m - 1)).take ((m2 - 1) - (m - 1))).map strip ::
            (sectionizeAux lines (k + 1) ((m2, s2) :: u)).map (fun x => x.2)
          = ((lines.drop (m - 1)).take ((m2 - 1) - (m - 1))).map strip ::
            (sectorRanges lines.length (((m2, s2) :: u).map Prod.fst)).map
              (fun r => ((lines.drop r.1).take (r.2 - r.1)).map strip)
      rw [ih (k + 1)]

/-- With strictly increasing marker line numbers in `[1, total]`, each
0-based line index is covered by exactly one sector range when it lies in
`[first_marker - 1, total)` and by none otherwise: the ranges are pairwise
disjoint and their union is exactly the tail of the file starting at the
first marker. -/
theorem sectorRanges_countP (total : Nat) :
    ∀ (ms : List Nat) (m0 : Nat), ms.Chain' (· < ·) →
      (∀ m ∈ ms, 1 ≤ m ∧ m ≤ total) → ms.head? = some m0 →
      ∀ j, (sectorRanges total ms).countP (fun r => inRange j r) =
        if m0 - 1 ≤ j ∧ j < total then 1 else 0 := by
  intro ms
  induction ms with
  | nil => intro m0 _ _ hh; exact absurd hh (by simp)
  | cons m t ih =>
    intro m0 hch hb hh j
    have hm0 : m = m0 := by simpa using hh
    subst hm0
    have hmb : 1 ≤ m ∧ m ≤ total := hb m (List.mem_cons_self m t)
    cases t with
    | nil =>
      simp only [sectorRanges, List.countP_cons, List.countP_nil, inRange]
      by_cases h1 : m - 1 ≤ j <;> by_cases h2 : j < total <;> simp [h1, h2]
    | cons m2 u =>
      have hlt : m < m2 := (List.chain'_cons.mp hch).1
      have hch2 : (m2 :: u).Chain' (· < ·) := (List.chain'_cons.mp hch).2
      have hb2 : ∀ x ∈ m2 :: u, 1 ≤ x ∧ x ≤ total := fun x hx =>
        hb x (List.mem_cons_of_mem m hx)
      have hm2b : 1 ≤ m2 ∧ m2 ≤ total := hb2 m2 (List.mem_cons_self m2 u)
      have htail := ih m2 hch2 hb2 rfl j
      simp only [sectorRanges] at htail ⊢
      rw [List.countP_cons, htail, inRange]
      by_cases h1 : m - 1 ≤ j <;> by_cases h2 : j < m2 - 1 <;>
        by_cases h3 : m2 - 1 ≤ j <;> by_cases h4 : j < total <;>
        simp [h1, h2, h3, h4] <;> omega

/-! ## C1 -/

/-- C1, counterexample: in the two-line file whose only marker is on line
2, the single produced sector spans 0-based index range `[1, 2)`, so line
1 of the file (index 0) is covered by no sector: the union of the sector
ranges is not the full line range of the file. -/
theorem c1_counterexample :
    run_grep_lines [("junk").toList, ("RX 1 RY 2 TX 3 TY 4").toList] =
      [(2, ("RX 1 RY 2 TX 3 TY 4").toList)] ∧
    (sectorRanges
        ([("junk").toList, ("RX 1 RY 2 TX 3 TY 4").toList].length)
        ((run_grep_lines [("junk").toList, ("RX 1 RY 2 TX 3 TY 4").toList]).map
          Prod.fst)).countP
      (fun r => inRange 0 r) = 0 ∧
    [("junk").toList, ("RX 1 RY 2 TX 3 TY 4").toList].length = 2 := by
  decide

/-- C1, amended: the Sectionizer produces exactly N sectors; sector *i*
is the stripped slice of the file over the 0-based index range
`[marker[i] - 1, marker[i+1] - 1)` (the last extending to end-of-file),
so in 1-based terms sector *i* spans `[marker[i], marker[i+1])`; these
ranges are pairwise disjoint and their union is exactly the line range
from the first marker to end-of-file — lines before the first marker
belong to no sector, so the union equals the full file range only when
the first marker is on line 1. -/
theorem c1_sectionizer_amended (lines : List Str) (m0 : Nat) (t0 : Str)
    (rest0 : List (Nat × Str))
    (h : run_grep_lines lines = (m0, t0) :: rest0) (j : Nat) :
    (sectionize lines (run_grep_lines lines)).length = (run_grep_lines lines).length ∧
    (sectionize lines (run_grep_lines lines)).map (fun s => s.2) =
      (sectorRanges lines.length ((run_grep_lines lines).map Prod.fst)).map
        (fun r => ((lines.drop r.1).take (r.2 - r.1)).map strip) ∧
    (sectorRanges lines.length ((run_grep_lines lines).map Prod.fst)).countP
        (fun r => inRange j r) =
      if m0 - 1 ≤ j ∧ j < lines.length then 1 else 0 := by
  refine ⟨sectionizeAux_length lines _ 1, sectionizeAux_ranges lines _ 1, ?_⟩
  have hch : ((run_grep_lines lines).map Prod.fst).Chain' (· < ·) := by
    rw [List.chain'_map]
    exact grepAux_chain lines 1
  have hb : ∀ m ∈ (run_grep_lines lines).map Prod.fst, 1 ≤ m ∧ m ≤ lines.length := by
    intro m hm
    obtain ⟨p, hp, hpm⟩ := List.mem_map.mp hm
    have := grepAux_bounds lines 1 p hp
    omega
  have hh : ((run_grep_lines lines).map Prod.fst).head? = some m0 := by
    rw [h]; rfl
  exact sectorRanges_countP lines.length _ m0 hch hb hh j

/-- C1, witness: a two-line file whose marker is on line 1; index 0 is
covered by exactly one sector range. -/
theorem c1_witness :
    run_grep_lines [("RX 1 RY 2 TX 3 TY 4").toList, ("alpha").toList] =
      [(1, ("RX 1 RY 2 TX 3 TY 4").toList)] ∧
    (sectorRanges
        ([("RX 1 RY 2 TX 3 TY 4").toList, ("alpha").toList].length)
        ((run_grep_lines [("RX 1 RY 2 TX 3 TY 4").toList, ("alpha").toList]).map
          Prod.fst)).countP
      (fun r => inRange 0 r) =
      if 1 - 1 ≤ 0 ∧ 0 < [("RX 1 RY 2 TX 3 TY 4").toList, ("alpha").toList].length
      then 1 else 0 :=
  ⟨by decide,
   (c1_sectionizer_amended [("RX 1 RY 2 TX 3 TY 4").toList, ("alpha").toList] 1
      (("RX 1 RY 2 TX 3 TY 4").toList) [] (by decide) 0).2.2⟩

/-! ## C4 -/

/-- C4: a coordinate observation is emitted for a mapping pair exactly
when the line's parsed-value set contains both its X and Y members, and
its coordinate-set name is the X-variable name with a trailing `X`
stripped when present (else unchanged) followed by `_Coords`; the example
line yields exactly the two observations `OrigTgX=5`, `OrigTgY=3` and
exactly one coordinate observation `OrigTg_Coords` with x=5, y=3. -/
theorem c4_coord_emission :
    (∀ (ts : Str) (n : Nat) (pv : List (Str × ℚ)) (cvs : List (Str × Str)),
      coordLoop ts n pv cvs = cvs.filterMap (fun p =>
        match pvLookup pv p.1, pvLookup pv p.2 with
        | some xv, some yv =>
          some ⟨ts, n,
            (if p.1.getLast? = some 'X' then p.1.dropLast else p.1) ++ ("_Coords").toList,
            xv, yv⟩
        | _, _ => none)) ∧
    process_sector [("21/05/24 10:00:00.123 OrigTgX: 5.0 OrigTgY: 3.0").toList] none
        (generate_default_coord_variables none) =
      ([⟨("21/05/24 10:00:00.123").toList, 1, ("OrigTgX").toList, 5⟩,
        ⟨("21/05/24 10:00:00.123").toList, 1, ("OrigTgY").toList, 3⟩],
       [⟨("21/05/24 10:00:00.123").toList, 1, ("OrigTg_Coords").toList, 5, 3⟩],
       [("OrigTgX").toList, ("OrigTgY").toList],
       [("OrigTg_Coords").toList]) := by
  constructor
  · intro ts n pv cvs
    induction cvs with
    | nil => rfl
    | cons p rest ih =>
      obtain ⟨x, y⟩ := p
      simp only [coordLoop, List.filterMap_cons, coordName]
      cases hx : pvLookup pv x <;> cases hy : pvLookup pv y <;>
        simp only [hx, hy, ih]
  · decide

/-! ## C5 -/

/-- C5: a line contributes observations only when it begins with a
timestamp of the exact shape `DD/MM/YY HH:MM:SS.mmm` (three sub-second
digits, followed by whitespace) whose fields form a valid date/time; any
other line contributes none, e.g. `"not a timestamp line X=5"`. -/
theorem c5_timestamp_gate (custom_variable : Option Str)
    (coord_vars : List (Str × Str)) (n : Nat) (line : Str)
    (h : ∀ ts f content, matchTimestamp line = some (ts, f, content) →
      validDateTime f = false) :
    processLine custom_variable coord_vars n line = ([], []) ∧
    process_sector [("not a timestamp line X=5").toList] none base_pairs =
      ([], [], [], []) := by
  constructor
  · rcases hm : matchTimestamp line with _ | ⟨ts, f, content⟩
    · simp only [processLine, hm]
    · simp only [processLine, hm, h ts f content hm, Bool.false_eq_true, if_false]
  · decide

/-- C5, witness: the example line has no leading timestamp, so the
hypothesis holds vacuously and the line yields no observations. -/
theorem c5_witness :
    matchTimestamp (("not a timestamp line X=5").toList) = none ∧
    processLine none base_pairs 1 (("not a timestamp line X=5").toList) = ([], []) :=
  ⟨by decide,
   (c5_timestamp_gate none base_pairs 1 (("not a timestamp line X=5").toList)
     (fun ts f content hm => by
        have hn : matchTimestamp (("not a timestamp line X=5").toList) = none := by
          decide
        rw [hn] at hm
        exact Option.noConfusion hm)).1⟩

/-! ## C6 -/

/-- C6: when a nonempty custom variable is given and the space-delimited
scan finds it on the line's content with a numeric value, an extra
observation for the custom variable is appended; on the example line with
custom variable `"RX"` the scan finds `RX 12` although no `:`/`=`
delimiter is present, so the only observation produced is `RX=12`. -/
theorem c6_custom_scan (cv : Str) (coord_vars : List (Str × Str)) (n : Nat)
    (line ts content valStr : Str) (f : TsF) (q : ℚ) (hcv : cv ≠ [])
    (hm : matchTimestamp line = some (ts, f, content))
    (hv : validDateTime f = true)
    (hs : searchCustom cv content = some valStr)
    (hq : float valStr = some q) :
    (⟨ts, n, cv, q⟩ : Observation) ∈ (processLine (some cv) coord_vars n line).1 ∧
    process_sector [("21/05/24 10:00:00.123 RX 12 RY 7 TX 3 TY 9").toList]
        (some (("RX").toList))
        (generate_default_coord_variables (some (("RX").toList))) =
      ([⟨("21/05/24 10:00:00.123").toList, 1, ("RX").toList, 12⟩], [],
       [("RX").toList], []) := by
  constructor
  · have hc : customObs ts n cv content = [(⟨ts, n, cv, q⟩ : Observation)] := by
      simp only [customObs, hs, hq]
    simp only [processLine, hm, hv, if_true, if_neg hcv, hc]
    exact List.mem_append_right _ (List.mem_singleton.mpr rfl)
  · decide

/-- C6, witness at the example line. -/
theorem c6_witness :
    (matchTimestamp (("21/05/24 10:00:00.123 RX 12 RY 7 TX 3 TY 9").toList) =
        some ((("21/05/24 10:00:00.123").toList),
          (⟨21, 5, 24, 10, 0, 0⟩ : TsF), ("RX 12 RY 7 TX 3 TY 9").toList) ∧
      searchCustom (("RX").toList) (("RX 12 RY 7 TX 3 TY 9").toList) =
        some (("12").toList) ∧
      float (("12").toList) = some 12) ∧
    (⟨("21/05/24 10:00:00.123").toList, 1, ("RX").toList, 12⟩ : Observation) ∈
      (processLine (some (("RX").toList))
        (generate_default_coord_variables (some (("RX").toList))) 1
        (("21/05/24 10:00:00.123 RX 12 RY 7 TX 3 TY 9").toList)).1 :=
  ⟨⟨by decide, by decide, by decide⟩,
   (c6_custom_scan (("RX").toList)
      (generate_default_coord_variables (some (("RX").toList))) 1
      (("21/05/24 10:00:00.123 RX 12 RY 7 TX 3 TY 9").toList)
      (("21/05/24 10:00:00.123").toList) (("RX 12 RY 7 TX 3 TY 9").toList)
      (("12").toList) (⟨21, 5, 24, 10, 0, 0⟩ : TsF) 12
      (by decide) (by decide) (by decide) (by decide) (by decide)).1⟩

/-! ## C8 -/

/-- C8: a token whose value part does not parse as a number contributes no
observation and no `parsed_values` binding, and the rest of the token list
is processed exactly as if the malformed token were absent (the loop is
total — nothing is raised or aborted); on the example line, `A=--` is
dropped silently and `B=2` is still extracted. -/
theorem c8_malformed_dropped (ts : Str) (n : Nat) (ps1 ps2 : List (Str × Str))
    (v s : Str) (h : float s = none) :
    pairsLoop ts n (ps1 ++ (v, s) :: ps2) = pairsLoop ts n (ps1 ++ ps2) ∧
    process_sector [("21/05/24 10:00:00.123 A=-- B=2").toList] none [] =
      ([⟨("21/05/24 10:00:00.123").toList, 1, ("B").toList, 2⟩], [],
       [("B").toList], []) := by
  constructor
  · induction ps1 with
    | nil => simp only [List.nil_append, pairsLoop, h]
    | cons p t ih =>
      obtain ⟨pv, pvs⟩ := p
      simp only [List.cons_append, pairsLoop]
      cases hf : float pvs <;> simp only [hf, List.append_eq, ih]
  · decide

/-- C8, witness: dropping the malformed `("A", "--")` token leaves the
parse of the remaining `("B", "2")` token unchanged. -/
theorem c8_witness :
    float (("--").toList) = none ∧
    pairsLoop (("21/05/24 10:00:00.123").toList) 1
        [(("A").toList, ("--").toList), (("B").toList, ("2").toList)] =
      pairsLoop (("21/05/24 10:00:00.123").toList) 1
        [(("B").toList, ("2").toList)] :=
  ⟨by decide,
   (c8_malformed_dropped (("21/05/24 10:00:00.123").toList) 1 []
      [(("B").toList, ("2").toList)] (("A").toList) (("--").toList)
      (by decide)).1⟩

/-! ## C9 -/

/-- The coordinate output of one line does not depend on the custom
variable: the custom scan never writes into `parsed_values`. -/
theorem processLine_coord_independent (c1 c2 : Option Str)
    (cvs : List (Str × Str)) (n : Nat) (l : Str) :
    (processLine c1 cvs n l).2 = (processLine c2 cvs n l).2 := by
  rcases hm : matchTimestamp l with _ | ⟨ts, f, content⟩
  · simp only [processLine, hm]
  · cases hv : validDateTime f <;> simp only [processLine, hm, hv] <;> rfl

theorem sectorLoop_coord_independent (c1 c2 : Option Str)
    (cvs : List (Str × Str)) :
    ∀ (n : Nat) (ls : List Str),
      (sectorLoop c1 cvs n ls).2 = (sectorLoop c2 cvs n ls).2 := by
  intro n ls
  induction ls generalizing n with
  | nil => rfl
  | cons l t ih =>
    simp only [sectorLoop]
    rw [processLine_coord_independent c1 c2 cvs n l, ih (n + 1)]

/-- C9: a value found solely by the custom-variable space-delimited scan
is never added to the per-line parsed-value set, so it can never cause a
coordinate observation: the coordinate table (and the coordinate-set name
list) of `process_sector` is the same as with no custom variable at all.
On the demonstration line, the custom scan yields the observation `WX=5`,
yet no coordinate observation is emitted for the pair `WX→WY`. -/
theorem c9_custom_never_coords :
    (∀ (lines : List Str) (custom_var : Option Str) (cvs : List (Str × Str)),
      (process_sector lines custom_var cvs).2.1 =
        (process_sector lines none cvs).2.1 ∧
      (process_sector lines custom_var cvs).2.2.2 =
        (process_sector lines none cvs).2.2.2) ∧
    (process_sector [("21/05/24 10:00:00.123 WX 5 WY: 3").toList]
        (some (("WX").toList)) base_pairs).2.1 = [] ∧
    (⟨("21/05/24 10:00:00.123").toList, 1, ("WX").toList, 5⟩ : Observation) ∈
      (process_sector [("21/05/24 10:00:00.123 WX 5 WY: 3").toList]
        (some (("WX").toList)) base_pairs).1 := by
  refine ⟨?_, by decide, by decide⟩
  intro lines custom_var cvs
  have hc := sectorLoop_coord_independent (normalizeCustom custom_var)
    (normalizeCustom none) cvs 1 lines
  constructor
  · simpa only [process_sector] using hc
  · simp only [process_sector]
    rw [hc]

/-! ## C10 -/

theorem pairsLoop_line_number (ts : Str) (n : Nat) (ps : List (Str × Str)) :
    ∀ o ∈ (pairsLoop ts n ps).2, o.line_number = n := by
  induction ps with
  | nil => intro o ho; exact absurd ho (List.not_mem_nil o)
  | cons p t ih =>
    obtain ⟨v, s⟩ := p
    intro o ho
    rw [pairsLoop] at ho
    cases hf : float s <;> simp only [hf] at ho
    · exact ih o ho
    · rcases List.mem_cons.mp ho with h | h
      · rw [h]
      · exact ih o h

theorem customObs_line_number (ts : Str) (n : Nat) (cv content : Str) :
    ∀ o ∈ customObs ts n cv content, o.line_number = n := by
  intro o ho
  unfold customObs at ho
  rcases hs : searchCustom cv content with _ | v <;> simp only [hs] at ho
  · exact absurd ho (List.not_mem_nil o)
  · rcases hf : float v with _ | q <;> simp only [hf] at ho
    · exact absurd ho (List.not_mem_nil o)
    · rw [List.mem_singleton.mp ho]

theorem coordLoop_line_number (ts : Str) (n : Nat) (pv : List (Str × ℚ)) :
    ∀ (cvs : List (Str × Str)), ∀ c ∈ coordLoop ts n pv cvs, c.line_number = n := by
  intro cvs
  induction cvs with
  | nil => intro c hc; exact absurd hc (List.not_mem_nil c)
  | cons p t ih =>
    obtain ⟨x, y⟩ := p
    intro c hc
    rw [coordLoop] at hc
    cases hx : pvLookup pv x <;> cases hy : pvLookup pv y <;>
      simp only [hx, hy] at hc
    · exact ih c hc
    · exact ih c hc
    · exact ih c hc
    · rcases List.mem_cons.mp hc with h | h
      · rw [h]
      · exact ih c h

theorem processLine_obs_line_number (c : Option Str) (cvs : List (Str × Str))
    (n : Nat) (l : Str) : ∀ o ∈ (processLine c cvs n l).1, o.line_number = n := by
  intro o ho
  rcases hm : matchTimestamp l with _ | ⟨ts, f, content⟩
  · simp only [processLine, hm] at ho
    exact absurd ho (List.not_mem_nil o)
  · cases hv : validDateTime f <;> simp only [processLine, hm, hv] at ho
    · exact absurd ho (List.not_mem_nil o)
    · rcases List.mem_append.mp ho with h | h
      · exact pairsLoop_line_number ts n (findPairs content) o h
      · rcases c with _ | cv
        · exact absurd h (List.not_mem_nil o)
        · replace h : o ∈ (if cv = [] then [] else customObs ts n cv content) := h
          by_cases hcv : cv = []
          · rw [if_pos hcv] at h
            exact absurd h (List.not_mem_nil o)
          · rw [if_neg hcv] at h
            exact customObs_line_number ts n cv content o h

theorem processLine_coord_line_number (c : Option Str) (cvs : List (Str × Str))
    (n : Nat) (l : Str) : ∀ x ∈ (processLine c cvs n l).2, x.line_number = n := by
  intro x hx
  rcases hm : matchTimestamp l with _ | ⟨ts, f, content⟩
  · simp only [processLine, hm] at hx
    exact absurd hx (List.not_mem_nil x)
  · cases hv : validDateTime f <;> simp only [processLine, hm, hv] at hx
    · exact absurd hx (List.not_mem_nil x)
    · exact coordLoop_line_number ts n _ cvs x hx

theorem sectorLoop_obs_src (c : Option Str) (cvs : List (Str × Str)) :
    ∀ (ls : List Str) (k : Nat) (o : Observation),
      o ∈ (sectorLoop c cvs k ls).1 →
      ∃ i, i < ls.length ∧ o ∈ (processLine c cvs (k + i) (ls.getD i [])).1 := by
  intro ls
  induction ls with
  | nil => intro k o ho; exact absurd ho (List.not_mem_nil o)
  | cons l t ih =>
    intro k o ho
    simp only [sectorLoop] at ho
    rcases List.mem_append.mp ho with h | h
    · exact ⟨0, by simp, by simpa using h⟩
    · obtain ⟨i, hi, hmem⟩ := ih (k + 1) o h
      refine ⟨i + 1, by simpa using Nat.succ_lt_succ hi, ?_⟩
      have hk : k + (i + 1) = (k + 1) + i := by omega
      rw [hk]
      simpa using hmem

theorem sectorLoop_coord_src (c : Option Str) (cvs : List (Str × Str)) :
    ∀ (ls : List Str) (k : Nat) (x : CoordObservation),
      x ∈ (sectorLoop c cvs k ls).2 →
      ∃ i, i < ls.length ∧ x ∈ (processLine c cvs (k + i) (ls.getD i [])).2 := by
  intro ls
  induction ls with
  | nil => intro k x hx; exact absurd hx (List.not_mem_nil x)
  | cons l t ih =>
    intro k x hx
    simp only [sectorLoop] at hx
    rcases List.mem_append.mp hx with h | h
    · exact ⟨0, by simp, by simpa using h⟩
    · obtain ⟨i, hi, hmem⟩ := ih (k + 1) x h
      refine ⟨i + 1, by simpa using Nat.succ_lt_succ hi, ?_⟩
      have hk : k + (i + 1) = (k + 1) + i := by omega
      rw [hk]
      simpa using hmem

/-- C10: every observation's (and coordinate observation's) `line_number`
is its line's 1-based position within the sector's own line list — it is
produced by parsing the sector line at 0-based index `line_number - 1`, so
a sector's first line always carries `line_number` 1; it is not the line's
number in the original file: in the example file, the sector starts at
file line 2 and the timestamped file line 3 yields an observation with
`line_number` 2. -/
theorem c10_line_numbers (lines : List Str) (custom_var : Option Str)
    (cvs : List (Str × Str)) (o : Observation) (co : CoordObservation)
    (ho : o ∈ (process_sector lines custom_var cvs).1)
    (hco : co ∈ (process_sector lines custom_var cvs).2.1) :
    (1 ≤ o.line_number ∧ o.line_number ≤ lines.length ∧
      o ∈ (processLine (normalizeCustom custom_var) cvs o.line_number
            (lines.getD (o.line_number - 1) [])).1) ∧
    (1 ≤ co.line_number ∧ co.line_number ≤ lines.length ∧
      co ∈ (processLine (normalizeCustom custom_var) cvs co.line_number
            (lines.getD (co.line_number - 1) [])).2) ∧
    parse_log_file_from_path (.ok [("x").toList, ("RX 1 RY 2 TX 3 TY 4").toList,
        ("21/05/24 10:00:00.123 A: 1").toList]) =
      ([(("Sector 1").toList,
         [("RX 1 RY 2 TX 3 TY 4").toList, ("21/05/24 10:00:00.123 A: 1").toList])],
       [⟨("Sector 1 - Line 2: RX 1 RY 2 TX 3 TY 4").toList, ("Sector 1").toList⟩],
       ("✅ Loaded 1 sector(s).").toList) ∧
    (process_sector [("RX 1 RY 2 TX 3 TY 4").toList,
        ("21/05/24 10:00:00.123 A: 1").toList] none base_pairs).1 =
      [⟨("21/05/24 10:00:00.123").toList, 2, ("A").toList, 1⟩] := by
  refine ⟨?_, ?_, by decide, by decide⟩
  · have ho2 : o ∈ (sectorLoop (normalizeCustom custom_var) cvs 1 lines).1 := ho
    obtain ⟨i, hi, hmem⟩ := sectorLoop_obs_src (normalizeCustom custom_var) cvs
      lines 1 o ho2
    have hn : o.line_number = 1 + i :=
      processLine_obs_line_number (normalizeCustom custom_var) cvs (1 + i)
        (lines.getD i []) o hmem
    refine ⟨by omega, by omega, ?_⟩
    have hi1 : o.line_number - 1 = i := by omega
    rw [hi1, hn]
    exact hmem
  · have hco2 : co ∈ (sectorLoop (normalizeCustom custom_var) cvs 1 lines).2 := hco
    obtain ⟨i, hi, hmem⟩ := sectorLoop_coord_src (normalizeCustom custom_var) cvs
      lines 1 co hco2
    have hn : co.line_number = 1 + i :=
      processLine_coord_line_number (normalizeCustom custom_var) cvs (1 + i)
        (lines.getD i []) co hmem
    refine ⟨by omega, by omega, ?_⟩
    have hi1 : co.line_number - 1 = i := by omega
    rw [hi1, hn]
    exact hmem

/-- C10, witness: a two-line sector whose second line yields both an
observation and a coordinate observation, each with `line_number` 2. -/
theorem c10_witness :
    ((⟨("21/05/24 10:00:00.123").toList, 2, ("OrigTgX").toList, 5⟩ : Observation) ∈
      (process_sector [("RX 1 RY 2 TX 3 TY 4").toList,
          ("21/05/24 10:00:00.123 OrigTgX: 5.0 OrigTgY: 3.0").toList]
        none base_pairs).1 ∧
     (⟨("21/05/24 10:00:00.123").toList, 2, ("OrigTg_Coords").toList, 5, 3⟩ :
        CoordObservation) ∈
      (process_sector [("RX 1 RY 2 TX 3 TY 4").toList,
          ("21/05/24 10:00:00.123 OrigTgX: 5.0 OrigTgY: 3.0").toList]
        none base_pairs).2.1) ∧
    (1 ≤ (2 : Nat) ∧ (2 : Nat) ≤ [("RX 1 RY 2 TX 3 TY 4").toList,
        ("21/05/24 10:00:00.123 OrigTgX: 5.0 OrigTgY: 3.0").toList].length ∧
      (⟨("21/05/24 10:00:00.123").toList, 2, ("OrigTgX").toList, 5⟩ : Observation) ∈
        (processLine (normalizeCustom none) base_pairs 2
          ([("RX 1 RY 2 TX 3 TY 4").toList,
            ("21/05/24 10:00:00.123 OrigTgX: 5.0 OrigTgY: 3.0").toList].getD
              (2 - 1) [])).1) :=
  ⟨⟨by decide, by decide⟩,
   (c10_line_numbers [("RX 1 RY 2 TX 3 TY 4").toList,
        ("21/05/24 10:00:00.123 OrigTgX: 5.0 OrigTgY: 3.0").toList] none base_pairs
      (⟨("21/05/24 10:00:00.123").toList, 2, ("OrigTgX").toList, 5⟩ : Observation)
      (⟨("21/05/24 10:00:00.123").toList, 2, ("OrigTg_Coords").toList, 5, 3⟩ :
        CoordObservation)
      (by decide) (by decide)).1⟩

end LogViz
